import Mathlib

/-!
# Verification of the codemcp change-proposal/approval core

Shallow embedding of `codemcp/approval_state.py` and
`codemcp/tools/write_file.py`.  The filesystem (target files, the
directory of pending-change records, and the per-session pointer files)
is modelled as explicit association lists keyed by strings; the Python
module-level globals (`pending_changes`, `commit_prompt_enabled`) are
fields of the same explicit `State`.  External collaborators that live
outside the repository (path/permission checks, git tracking checks,
line-ending detection, git commit) are passed in as an `Oracle` of
functions, following §6 of the specification which treats them as
black-box collaborators.
-/

deriving instance DecidableEq for Except

namespace Codemcp

/-- Association-list lookup, used to model both Python `dict` access and
"a directory of files keyed by name". -/
def lookupA {α : Type} (l : List (String × α)) (k : String) : Option α :=
  match l with
  | [] => none
  | (k₂, v) :: rest => if k₂ = k then some v else lookupA rest k

/-- Remove a key from an association list (models `del d[k]` /
`file.unlink()`; a no-op when the key is absent). -/
def eraseA {α : Type} : List (String × α) → String → List (String × α)
  | [], _ => []
  | p :: rest, k => if p.1 = k then eraseA rest k else p :: eraseA rest k

/-- Overwrite the binding of a key (models `d[k] = v` / writing a file). -/
def insertA {α : Type} (l : List (String × α)) (k : String) (v : α) :
    List (String × α) :=
  (k, v) :: eraseA l k

/-- One pending change record, mirroring the `change_info` dictionary built
in `write_file_content` (fields `type`, `file_path`, `content`,
`description`, `chat_id`, `line_endings`). -/
structure ChangeInfo where
  type : String
  file_path : String
  content : String
  description : String
  chat_id : String
  line_endings : String
deriving DecidableEq, Repr

/-- The observable state of the system:
* `files`: the target filesystem, path ↦ text content;
* `dirs`: directories known to exist (`os.makedirs` touches this);
* `pendingMem`: the module-level `pending_changes` dict (in-memory cache);
* `pendingDisk`: the `{change_id}.json` records in `PENDING_CHANGES_DIR`;
* `currentPtr`: the `current_{chat_id}.txt` pointer files, keyed by chat id;
* `commitPromptEnabled`: the module-level `commit_prompt_enabled` global. -/
structure State where
  files : List (String × String)
  dirs : List String
  pendingMem : List (String × ChangeInfo)
  pendingDisk : List (String × ChangeInfo)
  currentPtr : List (String × String)
  commitPromptEnabled : Bool
deriving DecidableEq, Repr

/-- Python `str.strip()` on both ends (used by `get_current_change_id`,
which does `f.read().strip()`). -/
def pyStrip (s : String) : String :=
  String.mk (((s.data.dropWhile Char.isWhitespace).reverse.dropWhile
    Char.isWhitespace).reverse)

/-- `approval_state.get_current_change_id`: read `current_{chat_id}.txt`
and strip it, or `None` when the pointer file does not exist. -/
def get_current_change_id (s : State) (chat_id : String) : Option String :=
  (lookupA s.currentPtr chat_id).map pyStrip

/-- `approval_state.set_current_change_id`: overwrite
`current_{chat_id}.txt` with `change_id`. -/
def set_current_change_id (s : State) (chat_id change_id : String) : State :=
  { s with currentPtr := insertA s.currentPtr chat_id change_id }

/-- `approval_state.clear_current_change_id`: delete the pointer file if it
exists (a no-op otherwise). -/
def clear_current_change_id (s : State) (chat_id : String) : State :=
  { s with currentPtr := eraseA s.currentPtr chat_id }

/-- `approval_state.store_pending_change`: store `change_info` in the
in-memory dict and as `{change_id}.json` on disk.  The Python code
generates the identifier with `uuid.uuid4()`; the generated identifier is
passed here as the `change_id` argument. -/
def store_pending_change (s : State) (change_id : String) (change_info : ChangeInfo) :
    State :=
  { s with
    pendingMem := insertA s.pendingMem change_id change_info
    pendingDisk := insertA s.pendingDisk change_id change_info }

/-- `approval_state.get_pending_change`: check the in-memory dict first,
then fall back to the on-disk record; `None` when neither has the id. -/
def get_pending_change (s : State) (change_id : String) : Option ChangeInfo :=
  match lookupA s.pendingMem change_id with
  | some info => some info
  | none => lookupA s.pendingDisk change_id

/-- `approval_state.remove_pending_change`: delete from the in-memory dict
(guarded by `in`) and unlink the on-disk record (guarded by `exists()`);
both guards make it a total, exception-free operation. -/
def remove_pending_change (s : State) (change_id : String) : State :=
  { s with
    pendingMem := eraseA s.pendingMem change_id
    pendingDisk := eraseA s.pendingDisk change_id }

/-- `approval_state.set_commit_prompt`: set the process-wide flag and
return the confirmation message. -/
def set_commit_prompt (s : State) (enabled : Bool) : State × String :=
  ({ s with commitPromptEnabled := enabled },
   if enabled then
     "Commit prompting enabled. You will be asked to confirm before changes are committed."
   else
     "Commit prompting disabled. Changes will be committed automatically after approval.")

/-- `approval_state.is_commit_prompt_enabled`. -/
def is_commit_prompt_enabled (s : State) : Bool :=
  s.commitPromptEnabled

/-- Simulate a process restart: the in-memory cache dictionary is gone,
the durable records (and pointer files) remain. -/
def clear_cache (s : State) : State :=
  { s with pendingMem := [] }

/-! ## The diff engine

`write_file_content` calls Python's `difflib.unified_diff`, which the
specification treats as "a standard unified-diff primitive" (§1, §4.3).
The functions below embed that primitive: `SequenceMatcher`'s
longest-matching-block recursion (no junk heuristic, which is inert for
the inputs at hand), `get_opcodes`, `get_grouped_opcodes` with context
`n = 3`, and the unified-diff line rendering with `lineterm=""`. -/

/-- Length of the longest common prefix of two line lists. -/
def commonPrefixLen : List String → List String → Nat
  | [], _ => 0
  | _ :: _, [] => 0
  | x :: xs, y :: ys => if x = y then commonPrefixLen xs ys + 1 else 0

/-- Inner loop of `find_longest_match`: scan all start positions `j` in
`b` for a fixed start position `i` in `a`, keeping the first maximal
block (a strictly longer block replaces the current best). -/
def flmInner (a b : List String) (i : Nat) (best : Nat × Nat × Nat) :
    Nat × Nat × Nat :=
  (List.range b.length).foldl
    (fun best j =>
      let k := commonPrefixLen (a.drop i) (b.drop j)
      if best.2.2 < k then (i, j, k) else best)
    best

/-- `SequenceMatcher.find_longest_match` over the whole of `a` and `b`:
of all maximal matching blocks, the one starting earliest in `a`, then
earliest in `b`.  Returns `(i, j, size)`. -/
def findLongestMatch (a b : List String) : Nat × Nat × Nat :=
  (List.range a.length).foldl (fun best i => flmInner a b i best) (0, 0, 0)

/-- `SequenceMatcher.get_matching_blocks` recursion: split around the
longest match and recurse on both sides.  `aoff`/`boff` are the global
offsets of the current slices; the fuel argument bounds the recursion
depth (each recursive call strictly shrinks the combined slice length). -/
def matchingBlocksAux : Nat → List String → List String → Nat → Nat →
    List (Nat × Nat × Nat)
  | 0, _, _, _, _ => []
  | fuel + 1, a, b, aoff, boff =>
    let m := findLongestMatch a b
    if m.2.2 = 0 then []
    else
      matchingBlocksAux fuel (a.take m.1) (b.take m.2.1) aoff boff
        ++ [(aoff + m.1, boff + m.2.1, m.2.2)]
        ++ matchingBlocksAux fuel (a.drop (m.1 + m.2.2)) (b.drop (m.2.1 + m.2.2))
            (aoff + m.1 + m.2.2) (boff + m.2.1 + m.2.2)

/-- `SequenceMatcher.get_matching_blocks`, with the terminating sentinel
block `(len(a), len(b), 0)`. -/
def get_matching_blocks (a b : List String) : List (Nat × Nat × Nat) :=
  matchingBlocksAux (a.length + b.length + 1) a b 0 0
    ++ [(a.length, b.length, 0)]

/-- Opcode tags of `SequenceMatcher.get_opcodes`. -/
inductive DTag where
  | replace
  | delete
  | insert
  | equal
deriving DecidableEq, Repr

/-- One opcode `(tag, i1, i2, j1, j2)`. -/
structure DOp where
  tag : DTag
  i1 : Nat
  i2 : Nat
  j1 : Nat
  j2 : Nat
deriving DecidableEq, Repr

/-- `SequenceMatcher.get_opcodes` walk over the matching blocks: between
the previous block's end `(i, j)` and the next block `(ai, bj, size)`,
emit a replace/delete/insert opcode, then an equal opcode for the block
itself when `size ≠ 0`. -/
def getOpcodesAux : Nat → Nat → List (Nat × Nat × Nat) → List DOp
  | _, _, [] => []
  | i, j, (ai, bj, size) :: rest =>
    (if i < ai then
      (if j < bj then [⟨.replace, i, ai, j, bj⟩] else [⟨.delete, i, ai, j, bj⟩])
     else if j < bj then [⟨.insert, i, ai, j, bj⟩]
     else [])
    ++ (if size = 0 then [] else [⟨.equal, ai, ai + size, bj, bj + size⟩])
    ++ getOpcodesAux (ai + size) (bj + size) rest

/-- `SequenceMatcher.get_opcodes`. -/
def get_opcodes (a b : List String) : List DOp :=
  getOpcodesAux 0 0 (get_matching_blocks a b)

/-- First step of `get_grouped_opcodes`: shrink a leading equal opcode to
at most `n` lines of context. -/
def trimHead (n : Nat) : List DOp → List DOp
  | [] => []
  | c :: rest =>
    if c.tag = .equal then
      ⟨.equal, max c.i1 (c.i2 - n), c.i2, max c.j1 (c.j2 - n), c.j2⟩ :: rest
    else c :: rest

/-- Second step of `get_grouped_opcodes`: shrink a trailing equal opcode
to at most `n` lines of context (applied after `trimHead`, so on a
single-element list both trims hit the same opcode, as in Python where
`codes[0]` and `codes[-1]` alias). -/
def trimLast (n : Nat) (l : List DOp) : List DOp :=
  match l.getLast? with
  | none => []
  | some c =>
    if c.tag = .equal then
      l.dropLast ++ [⟨.equal, c.i1, min c.i2 (c.i1 + n), c.j1, min c.j2 (c.j1 + n)⟩]
    else l

/-- Grouping loop of `get_grouped_opcodes`: split at equal opcodes wider
than `2n`, and drop a final group that is a single equal opcode. -/
def groupSplit (n : Nat) : List DOp → List DOp → List (List DOp)
  | [], group =>
    match group with
    | [] => []
    | [c] => if c.tag = .equal then [] else [[c]]
    | _ => [group]
  | c :: rest, group =>
    if c.tag = .equal ∧ n + n < c.i2 - c.i1 then
      (group ++ [⟨.equal, c.i1, min c.i2 (c.i1 + n), c.j1, min c.j2 (c.j1 + n)⟩])
        :: groupSplit n rest [⟨.equal, max c.i1 (c.i2 - n), c.i2, max c.j1 (c.j2 - n), c.j2⟩]
    else groupSplit n rest (group ++ [c])

/-- `SequenceMatcher.get_grouped_opcodes` with context size `n`
(`unified_diff` uses `n = 3`). -/
def get_grouped_opcodes (n : Nat) (a b : List String) : List (List DOp) :=
  let codes0 := get_opcodes a b
  let codes1 := if codes0.isEmpty then [⟨.equal, 0, 1, 0, 1⟩] else codes0
  groupSplit n (trimLast n (trimHead n codes1)) []

/-- `difflib._format_range_unified`: render a `start, stop` index pair as
the `l,c`-style range of a `@@` hunk header. -/
def formatRangeUnified (start stop : Nat) : String :=
  if stop - start = 1 then toString (start + 1)
  else
    toString (if stop - start = 0 then start else start + 1) ++ ","
      ++ toString (stop - start)

/-- Python slice `l[i:j]` (with `i ≤ j`). -/
def listSlice (l : List String) (i j : Nat) : List String :=
  (l.drop i).take (j - i)

/-- Body lines contributed by one opcode of a group: context lines with a
leading space, deletions with `-`, insertions with `+`. -/
def opLines (a b : List String) (c : DOp) : List String :=
  if c.tag = .equal then (listSlice a c.i1 c.i2).map (fun s => " " ++ s)
  else
    (if c.tag = .replace ∨ c.tag = .delete then
      (listSlice a c.i1 c.i2).map (fun s => "-" ++ s)
     else [])
    ++ (if c.tag = .replace ∨ c.tag = .insert then
      (listSlice b c.j1 c.j2).map (fun s => "+" ++ s)
     else [])

/-- Render one group of opcodes: the `@@` hunk header (from the first
opcode's start and the last opcode's end) followed by the body lines. -/
def renderGroup (a b : List String) (g : List DOp) : List String :=
  match g.head?, g.getLast? with
  | some first, some last =>
    ("@@ -" ++ formatRangeUnified first.i1 last.i2
      ++ " +" ++ formatRangeUnified first.j1 last.j2 ++ " @@")
      :: (g.map (opLines a b)).flatten
  | _, _ => []

/-- `difflib.unified_diff(a, b, fromfile, tofile, lineterm="")` as a list
of output lines: the two `---`/`+++` header lines are emitted once,
before the first group, so equal inputs produce no output at all. -/
def unified_diff (a b : List String) (fromfile tofile : String) : List String :=
  match get_grouped_opcodes 3 a b with
  | [] => []
  | groups =>
    ("--- " ++ fromfile) :: ("+++ " ++ tofile)
      :: (groups.map (renderGroup a b)).flatten

/-- Python `str.splitlines()` restricted to the `\n`, `\r` and `\r\n`
line boundaries (the only ones the repository's texts contain): split on
each boundary, with no entry for a trailing terminator. -/
def splitlinesAux : List Char → List Char → List String
  | [], acc => if acc.isEmpty then [] else [String.mk acc.reverse]
  | '\r' :: '\n' :: rest, acc => String.mk acc.reverse :: splitlinesAux rest []
  | '\r' :: rest, acc => String.mk acc.reverse :: splitlinesAux rest []
  | '\n' :: rest, acc => String.mk acc.reverse :: splitlinesAux rest []
  | c :: rest, acc => splitlinesAux rest (c :: acc)

/-- Python `str.splitlines()`. -/
def splitlines (s : String) : List String :=
  splitlinesAux s.data []

/-! ## The write tool (`codemcp/tools/write_file.py`) -/

/-- Split a character list at every `/` (the component list of a POSIX
path, like Python's `p.split("/")`). -/
def splitOnSlash : List Char → List (List Char)
  | [] => [[]]
  | x :: xs =>
    match splitOnSlash xs with
    | [] => [[]]
    | r :: rest => if x = '/' then [] :: r :: rest else (x :: r) :: rest

/-- The `/`-separated components of a path. -/
def pathParts (p : String) : List String :=
  (splitOnSlash p.data).map String.mk

/-- POSIX `os.path.basename`: the part after the last `/`. -/
def basename (p : String) : String :=
  ((pathParts p).getLast?).getD ""

/-- POSIX `os.path.dirname`: the part before the last `/` (with the root
directory kept as `/`). -/
def dirname (p : String) : String :=
  let parts := pathParts p
  if parts.length ≤ 1 then ""
  else
    let d := String.intercalate "/" parts.dropLast
    if d = "" then "/" else d

/-- `os.makedirs(directory, exist_ok=True)` on the model's directory set. -/
def makedirs (dirs : List String) (d : String) : List String :=
  if d ∈ dirs then dirs else d :: dirs

/-- External collaborators of `write_file_content`, all of which live
outside this repository's four source files.  Modelled from the spec:
§1/§6 treat `check_file_path_and_permissions`,
`check_git_tracking_for_existing_file` (the version-control gateway's
`is_tracked`), `detect_line_endings` / `detect_repo_line_endings` and
`commit_changes` as black-box collaborators, so each is an arbitrary
function supplied to the embedding. -/
structure Oracle where
  pathValid : String → Bool
  pathError : String → String
  gitTracked : String → Bool
  trackError : String → String
  detectLineEndings : String → String
  repoLineEndings : String → String
  commitOk : String → Bool
  commitMsg : String → String

/-- Modelled from the spec: `write_text_content` (in the out-of-scope
`file_utils` module) writes the payload "using the stored line-ending
convention" (§4.4 step 3), i.e. the text with its newlines converted to
the recorded style. -/
def applyLineEndings (style content : String) : String :=
  (content.replace "\r\n" "\n").replace "\n" style

/-- The diff generation of `write_file_content` (lines 82–93 of
`write_file.py`): split both texts into lines — `current_lines` is `[]`
when the old content is falsy — and render a unified diff with
`a/<basename>` and `b/<basename>` labels. -/
def diff_lines (current_content content file_path : String) : List String :=
  let current_lines := if current_content ≠ "" then splitlines current_content else []
  let new_lines := splitlines content
  unified_diff current_lines new_lines
    ("a/" ++ basename file_path) ("b/" ++ basename file_path)

/-- The preview-mode return string of `write_file_content` (lines
118–124): the diff plus approval/rejection instructions quoting the
freshly generated change id. -/
def proposeMsg (action file_path diff_text change_id : String) : String :=
  "Proposed changes for " ++ action ++ " " ++ file_path ++ ":\n\n"
    ++ diff_text
    ++ "\n\nTo apply this change, use: approve_change(\"" ++ change_id
    ++ "\")\nTo reject this change, use: reject_change(\"" ++ change_id
    ++ "\")\nChange ID: " ++ change_id

/-- `write_file_content(file_path, content, description, chat_id, preview)`.

Control flow mirrors the Python source: validate the path, reject an
existing file that git does not track, detect line endings (creating the
parent directory for a new file), then either (preview) compute the diff,
store the change record in both the in-memory dict and on disk, and
return the instructions message — or (non-preview) write the file with
the detected line endings and attempt a git commit.  The fresh
`uuid.uuid4()` identifier is passed in as `freshId`; Python exceptions
are `Except.error` (both raises occur before any mutation). -/
def write_file_content (o : Oracle) (freshId : String) (s : State)
    (file_path content description chat_id : String) (preview : Bool := true) :
    Except String (State × String) :=
  if o.pathValid file_path = false then .error (o.pathError file_path)
  else
    let old := lookupA s.files file_path
    if old.isSome = true ∧ o.gitTracked file_path = false then
      .error (o.trackError file_path)
    else
      let current_content := old.getD ""
      let line_endings :=
        if old.isSome = true then o.detectLineEndings file_path
        else o.repoLineEndings (dirname file_path)
      let s₁ :=
        if old.isSome = true then s
        else { s with dirs := makedirs s.dirs (dirname file_path) }
      if preview = true then
        let diff_text := String.intercalate "\n" (diff_lines current_content content file_path)
        let action := if old.isSome = true then "updating" else "creating"
        let info : ChangeInfo :=
          ⟨"write", file_path, content, description, chat_id, line_endings⟩
        .ok ({ s₁ with
                pendingMem := insertA s₁.pendingMem freshId info
                pendingDisk := insertA s₁.pendingDisk freshId info },
             proposeMsg action file_path diff_text freshId)
      else
        let s₂ := { s₁ with
          files := insertA s₁.files file_path (applyLineEndings line_endings content) }
        let git_message :=
          if o.commitOk file_path then
            "\nChanges committed to git: " ++ description
          else
            "\nFailed to commit changes to git: " ++ o.commitMsg file_path
        .ok (s₂, "Successfully wrote to " ++ file_path ++ git_message)

/-- The state built by the preview branch of `write_file_content`: the
parent directory created when the file is new, and the change record
inserted into both the in-memory dict and the on-disk store. -/
def previewState (o : Oracle) (freshId : String) (s : State)
    (file_path content description chat_id : String) : State :=
  let old := lookupA s.files file_path
  let line_endings :=
    if old.isSome = true then o.detectLineEndings file_path
    else o.repoLineEndings (dirname file_path)
  let s₁ :=
    if old.isSome = true then s
    else { s with dirs := makedirs s.dirs (dirname file_path) }
  let info : ChangeInfo :=
    ⟨"write", file_path, content, description, chat_id, line_endings⟩
  { s₁ with
    pendingMem := insertA s₁.pendingMem freshId info
    pendingDisk := insertA s₁.pendingDisk freshId info }

/-- Run `write_file_content`, reading a raised exception as "no state
change, message is the error text" (both raises in the source occur
before any mutation). -/
def run_write (o : Oracle) (freshId : String) (s : State)
    (file_path content description chat_id : String) (preview : Bool := true) :
    State × String :=
  match write_file_content o freshId s file_path content description chat_id preview with
  | .ok r => r
  | .error e => (s, e)

/-- `apply_write(file_path, content, description, chat_id)` (lines
140–175 of `write_file.py`).

The source toggles a global `session_state["auto_edit"]` around a call to
`write_file_content(file_path, content, description, chat_id)` — note:
`session_state` is not imported or defined anywhere in the module, and
`write_file_content` never reads it; moreover the call leaves `preview`
at its default `True`.  We model the toggle charitably as a no-op (the
name-resolution failure aside, it influences nothing) and keep the call
exactly as written, i.e. with `preview = true`. -/
def apply_write (o : Oracle) (freshId : String) (s : State)
    (file_path content description chat_id : String) :
    Except String (State × String) :=
  write_file_content o freshId s file_path content description chat_id true

/-- `apply_write` with exceptions read as "state unchanged". -/
def run_apply (o : Oracle) (freshId : String) (s : State)
    (file_path content description chat_id : String) : State × String :=
  match apply_write o freshId s file_path content description chat_id with
  | .ok r => r
  | .error e => (s, e)

/-! ## Concrete fixtures used by witnesses -/

/-- An oracle for a healthy repository: every path valid, every existing
file tracked, Unix line endings, commits succeed. -/
def okOracle : Oracle where
  pathValid := fun _ => true
  pathError := fun _ => "invalid path"
  gitTracked := fun _ => true
  trackError := fun p => "File is not tracked by git: " ++ p
  detectLineEndings := fun _ => "\n"
  repoLineEndings := fun _ => "\n"
  commitOk := fun _ => true
  commitMsg := fun _ => ""

/-- Like `okOracle`, but no file is tracked by git. -/
def untrackedOracle : Oracle :=
  { okOracle with gitTracked := fun _ => false }

/-- The pristine state: empty filesystem, no pending changes, no session
pointers, commit prompting at its initial `True`. -/
def emptyState : State where
  files := []
  dirs := []
  pendingMem := []
  pendingDisk := []
  currentPtr := []
  commitPromptEnabled := true

/-- A state whose filesystem holds one (untracked, per the oracle used
with it) existing file. -/
def oneFileState : State :=
  { emptyState with files := [("/repo/f.txt", "old content")] }

/-- The state after proposing (in preview mode) a write of `"hello\n"` to
the fresh file `/repo/notes.txt` under change id `c1`. -/
def proposalState : State :=
  (run_write okOracle "c1" emptyState "/repo/notes.txt" "hello\n" "add notes"
    "chat1" true).1

/-! ## Lemmas -/

@[simp]
theorem lookupA_insertA_self {α : Type} (l : List (String × α)) (k : String) (v : α) :
    lookupA (insertA l k v) k = some v := by
  simp [insertA, lookupA]

theorem lookupA_eraseA_self {α : Type} (l : List (String × α)) (k : String) :
    lookupA (eraseA l k) k = none := by
  induction l with
  | nil => simp [eraseA, lookupA]
  | cons p rest ih =>
    by_cases hp : p.1 = k
    · simpa [eraseA, hp] using ih
    · simp [eraseA, lookupA, hp, ih]

theorem lookupA_eraseA_ne {α : Type} (l : List (String × α)) (k k₂ : String)
    (h : k ≠ k₂) : lookupA (eraseA l k) k₂ = lookupA l k₂ := by
  induction l with
  | nil => simp [eraseA]
  | cons p rest ih =>
    by_cases hp : p.1 = k
    · have hp2 : ¬ p.1 = k₂ := by rw [hp]; exact h
      simp [eraseA, lookupA, hp, hp2, h, ih]
    · by_cases h2 : p.1 = k₂ <;>
        simp [eraseA, lookupA, hp, h2, h, Ne.symm h, ih]

theorem lookupA_insertA_ne {α : Type} (l : List (String × α)) (k k₂ : String) (v : α)
    (h : k ≠ k₂) : lookupA (insertA l k v) k₂ = lookupA l k₂ := by
  simp [insertA, lookupA, h, lookupA_eraseA_ne l k k₂ h]

theorem eraseA_eraseA {α : Type} (l : List (String × α)) (k : String) :
    eraseA (eraseA l k) k = eraseA l k := by
  induction l with
  | nil => simp [eraseA]
  | cons p rest ih =>
    by_cases hp : p.1 = k <;> simp [eraseA, hp, ih]

theorem eraseA_insertA {α : Type} (l : List (String × α)) (k : String) (v : α) :
    eraseA (insertA l k v) k = eraseA l k := by
  simp [insertA, eraseA, eraseA_eraseA]

/-! ### Lemmas about the diff engine -/

theorem foldl_stays {β γ : Type} (f : γ → β → γ) (x : γ) (l : List β)
    (h : ∀ y ∈ l, f x y = x) : l.foldl f x = x := by
  induction l with
  | nil => rfl
  | cons hd tl ih =>
    rw [List.foldl_cons, h hd (by simp)]
    exact ih (fun y hy => h y (by simp [hy]))

theorem commonPrefixLen_le_left (xs : List String) :
    ∀ ys, commonPrefixLen xs ys ≤ xs.length := by
  induction xs with
  | nil => intro ys; simp [commonPrefixLen]
  | cons x xs ih =>
    intro ys
    cases ys with
    | nil => simp [commonPrefixLen]
    | cons y ys =>
      by_cases h : x = y
      · simp only [commonPrefixLen, if_pos h, List.length_cons]
        have := ih ys
        omega
      · simp [commonPrefixLen, h]

theorem commonPrefixLen_self (xs : List String) :
    commonPrefixLen xs xs = xs.length := by
  induction xs with
  | nil => simp [commonPrefixLen]
  | cons x xs ih => simp [commonPrefixLen, ih]

theorem flmInner_stays (a b : List String) (i : Nat) (best : Nat × Nat × Nat)
    (h : ∀ j, commonPrefixLen (a.drop i) (b.drop j) ≤ best.2.2) :
    flmInner a b i best = best := by
  unfold flmInner
  apply foldl_stays
  intro j _
  simp only []
  rw [if_neg (Nat.not_lt.mpr (h j))]

theorem findLongestMatch_nil_left (b : List String) :
    findLongestMatch [] b = (0, 0, 0) := by
  simp [findLongestMatch]

theorem findLongestMatch_nil_right (a : List String) :
    findLongestMatch a [] = (0, 0, 0) := by
  unfold findLongestMatch
  apply foldl_stays
  intro i _
  simp [flmInner]

theorem findLongestMatch_self (a : List String) (h : a ≠ []) :
    findLongestMatch a a = (0, 0, a.length) := by
  obtain ⟨n, hn⟩ : ∃ n, a.length = n + 1 := by
    cases a with
    | nil => exact absurd rfl h
    | cons x xs => exact ⟨xs.length, rfl⟩
  have hrange : List.range a.length = 0 :: List.map Nat.succ (List.range n) := by
    rw [hn, List.range_succ_eq_map]
  have hfirst : flmInner a a 0 (0, 0, 0) = (0, 0, a.length) := by
    unfold flmInner
    rw [hrange, List.foldl_cons]
    simp only [List.drop_zero, commonPrefixLen_self]
    have hpos : (((0, 0, 0) : Nat × Nat × Nat)).2.2 < a.length := by
      show (0 : Nat) < a.length
      omega
    rw [if_pos hpos]
    apply foldl_stays
    intro j _
    simp only []
    rw [if_neg (Nat.not_lt.mpr (commonPrefixLen_le_left a (a.drop j)))]
  unfold findLongestMatch
  rw [hrange, List.foldl_cons]
  simp only [hfirst]
  apply foldl_stays
  intro i _
  apply flmInner_stays
  intro j
  calc commonPrefixLen (a.drop i) (a.drop j) ≤ (a.drop i).length :=
        commonPrefixLen_le_left _ _
    _ ≤ a.length := by simp [List.length_drop]

theorem matchingBlocksAux_nil_left (fuel : Nat) (b : List String) (ao bo : Nat) :
    matchingBlocksAux fuel [] b ao bo = [] := by
  cases fuel with
  | zero => rfl
  | succ f => simp [matchingBlocksAux, findLongestMatch_nil_left]

theorem matchingBlocksAux_nil_right (fuel : Nat) (a : List String) (ao bo : Nat) :
    matchingBlocksAux fuel a [] ao bo = [] := by
  cases fuel with
  | zero => rfl
  | succ f => simp [matchingBlocksAux, findLongestMatch_nil_right]

theorem get_matching_blocks_nil_left (b : List String) :
    get_matching_blocks [] b = [(0, b.length, 0)] := by
  simp [get_matching_blocks, matchingBlocksAux_nil_left]

theorem get_matching_blocks_self (a : List String) (h : a ≠ []) :
    get_matching_blocks a a = [(0, 0, a.length), (a.length, a.length, 0)] := by
  have hL : a.length ≠ 0 := by simpa using h
  unfold get_matching_blocks
  rw [matchingBlocksAux]
  simp only [findLongestMatch_self a h]
  rw [if_neg hL]
  simp [matchingBlocksAux_nil_left, List.drop_length]

theorem get_opcodes_nil_left (b : List String) (h : b ≠ []) :
    get_opcodes [] b = [⟨.insert, 0, 0, 0, b.length⟩] := by
  have hb : 0 < b.length := List.length_pos.mpr h
  simp [get_opcodes, get_matching_blocks_nil_left, getOpcodesAux, hb]

theorem get_opcodes_self (a : List String) (h : a ≠ []) :
    get_opcodes a a = [⟨.equal, 0, a.length, 0, a.length⟩] := by
  have hL : a.length ≠ 0 := by simpa using h
  simp [get_opcodes, get_matching_blocks_self a h, getOpcodesAux, hL]

theorem grouped_single_equal (n i1 i2 j1 j2 : Nat) :
    groupSplit n (trimLast n (trimHead n [⟨.equal, i1, i2, j1, j2⟩])) [] = [] := by
  simp only [trimHead, trimLast]
  have hcut : ¬ (n + n < min i2 (max i1 (i2 - n) + n) - max i1 (i2 - n)) := by
    omega
  simp [groupSplit, hcut]

theorem grouped_single_nonequal (n : Nat) (c : DOp) (h : ¬ c.tag = .equal) :
    groupSplit n (trimLast n (trimHead n [c])) [] = [[c]] := by
  cases c with
  | mk tag i1 i2 j1 j2 =>
    simp only at h
    simp [trimHead, trimLast, groupSplit, h]

theorem get_grouped_opcodes_self (a : List String) :
    get_grouped_opcodes 3 a a = [] := by
  by_cases h : a = []
  · subst h
    decide
  · simp [get_grouped_opcodes, get_opcodes_self a h, grouped_single_equal]

/-- Equal line lists produce an empty unified diff: no hunks, and hence
no `---`/`+++` header lines either. -/
theorem unified_diff_self (a : List String) (fromfile tofile : String) :
    unified_diff a a fromfile tofile = [] := by
  simp [unified_diff, get_grouped_opcodes_self]

theorem get_grouped_opcodes_nil_left (b : List String) (h : b ≠ []) :
    get_grouped_opcodes 3 [] b = [[⟨.insert, 0, 0, 0, b.length⟩]] := by
  simp [get_grouped_opcodes, get_opcodes_nil_left b h,
    grouped_single_nonequal 3 ⟨.insert, 0, 0, 0, b.length⟩ (by simp)]

/-- Creating a file (empty old text) renders as one hunk whose body is
the new content entirely as `+` lines, through the very same rendering
pipeline as any other diff. -/
theorem unified_diff_nil_left (b : List String) (h : b ≠ [])
    (fromfile tofile : String) :
    unified_diff [] b fromfile tofile =
      ("--- " ++ fromfile) :: ("+++ " ++ tofile)
        :: ("@@ -" ++ formatRangeUnified 0 0 ++ " +"
              ++ formatRangeUnified 0 b.length ++ " @@")
        :: b.map (fun s => "+" ++ s) := by
  rw [unified_diff]
  rw [get_grouped_opcodes_nil_left b h]
  simp [renderGroup, opLines, listSlice]

/-- Unfolding equation for `write_file_content` in preview mode: either
one of the two validation errors, or the preview state paired with the
instructions message. -/
theorem write_file_content_preview_eq (o : Oracle) (i : String) (s : State)
    (fp content d cid : String) :
    write_file_content o i s fp content d cid true =
      (if o.pathValid fp = false then .error (o.pathError fp)
       else if (lookupA s.files fp).isSome = true ∧ o.gitTracked fp = false then
         .error (o.trackError fp)
       else
         .ok (previewState o i s fp content d cid,
           proposeMsg
             (if (lookupA s.files fp).isSome = true then "updating" else "creating")
             fp
             (String.intercalate "\n"
               (diff_lines ((lookupA s.files fp).getD "") content fp))
             i)) := rfl

/-- The preview branch never modifies the target filesystem. -/
theorem previewState_files (o : Oracle) (i : String) (s : State)
    (fp content d cid : String) :
    (previewState o i s fp content d cid).files = s.files := by
  unfold previewState
  by_cases h : (lookupA s.files fp).isSome = true <;> simp [h]

/-! ## Claims -/

/-- C2: after `store_pending_change` returns an identifier,
`get_pending_change` with that identifier returns the stored record —
also when the in-memory cache has been cleared (a simulated restart), in
which case it is served from the durable record; and `get` is absent
exactly when neither the cache nor durable storage has the identifier. -/
theorem store_then_get_pending_change (s : State) (id : String) (info : ChangeInfo) :
    get_pending_change (store_pending_change s id info) id = some info ∧
    get_pending_change (clear_cache (store_pending_change s id info)) id = some info ∧
    (∀ (s₂ : State) (id₂ : String),
      get_pending_change s₂ id₂ = none ↔
        lookupA s₂.pendingMem id₂ = none ∧ lookupA s₂.pendingDisk id₂ = none) := by
  refine ⟨?_, ?_, ?_⟩
  · simp [get_pending_change, store_pending_change]
  · simp [get_pending_change, clear_cache, store_pending_change, lookupA]
  · intro s₂ id₂
    unfold get_pending_change
    cases h : lookupA s₂.pendingMem id₂ <;> simp [h]

/-- C4: a session's current pointer is a single slot — setting it twice
leaves the second value, the first being silently replaced (the pointer
table after both writes is that after the second alone).  Generated
change identifiers carry no surrounding whitespace, so reading the
pointer back through `strip()` returns the id verbatim. -/
theorem set_current_change_id_replaces (s : State) (chat c₁ c₂ : String)
    (h : pyStrip c₂ = c₂) :
    get_current_change_id
        (set_current_change_id (set_current_change_id s chat c₁) chat c₂) chat
      = some c₂ ∧
    (set_current_change_id (set_current_change_id s chat c₁) chat c₂).currentPtr
      = (set_current_change_id s chat c₂).currentPtr := by
  constructor
  · simp [get_current_change_id, set_current_change_id, lookupA, h]
  · simp [set_current_change_id, insertA, eraseA, eraseA_eraseA]

/-- Witness for C4 at a concrete session and concrete change ids. -/
theorem set_current_change_id_replaces_witness :
    pyStrip "c2" = "c2" ∧
    get_current_change_id
        (set_current_change_id (set_current_change_id emptyState "chat" "c1") "chat" "c2")
        "chat" = some "c2" :=
  ⟨by decide,
   (set_current_change_id_replaces emptyState "chat" "c1" "c2" (by decide)).1⟩

/-- C7: cross-session isolation — setting or clearing the current-change
pointer of session `b` does not change what `get_current_change_id`
returns for a different session `a`. -/
theorem current_change_id_cross_session (s : State) (a b c : String) (h : a ≠ b) :
    get_current_change_id (set_current_change_id s b c) a
      = get_current_change_id s a ∧
    get_current_change_id (clear_current_change_id s b) a
      = get_current_change_id s a := by
  constructor
  · simp [get_current_change_id, set_current_change_id,
      lookupA_insertA_ne s.currentPtr b a c (Ne.symm h)]
  · simp [get_current_change_id, clear_current_change_id,
      lookupA_eraseA_ne s.currentPtr b a (Ne.symm h)]

/-- Witness for C7 at two concrete distinct sessions. -/
theorem current_change_id_cross_session_witness :
    ("chatA" : String) ≠ "chatB" ∧
    get_current_change_id (set_current_change_id emptyState "chatB" "c9") "chatA"
      = get_current_change_id emptyState "chatA" :=
  ⟨by decide,
   (current_change_id_cross_session emptyState "chatA" "chatB" "c9" (by decide)).1⟩

/-- C8: removal is idempotent — `remove_pending_change` is a total
operation (the source guards both deletions, so an absent id raises
nothing), after it the id resolves to absent, and removing again is a
no-op. -/
theorem remove_pending_change_idempotent (s : State) (id : String) :
    get_pending_change (remove_pending_change s id) id = none ∧
    remove_pending_change (remove_pending_change s id) id
      = remove_pending_change s id := by
  constructor
  · simp [get_pending_change, remove_pending_change, lookupA_eraseA_self]
  · simp [remove_pending_change, eraseA_eraseA]

/-- C9: `set_commit_prompt b` makes `is_commit_prompt_enabled` return `b`
and returns the confirmation text describing the resulting behaviour
(prompt-before-commit when enabled, auto-commit after approval when
disabled). -/
theorem set_commit_prompt_roundtrip (s : State) (b : Bool) :
    is_commit_prompt_enabled (set_commit_prompt s b).1 = b ∧
    (set_commit_prompt s b).2 =
      (if b then
        "Commit prompting enabled. You will be asked to confirm before changes are committed."
       else
        "Commit prompting disabled. Changes will be committed automatically after approval.") :=
  ⟨rfl, rfl⟩

/-- C3: proposing a write to an existing file that git does not track
raises the tracking error, and the raise happens before any mutation, so
no ChangeRecord is created and the store, the pointer table and the
target file are all unchanged. -/
theorem propose_untracked_existing_rejected (o : Oracle) (i : String) (s : State)
    (fp content d cid : String) (pv : Bool) (c : String)
    (hvalid : o.pathValid fp = true)
    (hex : lookupA s.files fp = some c)
    (htr : o.gitTracked fp = false) :
    write_file_content o i s fp content d cid pv = .error (o.trackError fp) ∧
    run_write o i s fp content d cid pv = (s, o.trackError fp) := by
  have h₁ : write_file_content o i s fp content d cid pv = .error (o.trackError fp) := by
    unfold write_file_content
    rw [hvalid]
    simp [hex, htr]
  exact ⟨h₁, by simp [run_write, h₁]⟩

/-- Witness for C3: a concrete untracked existing file. -/
theorem propose_untracked_existing_rejected_witness :
    untrackedOracle.pathValid "/repo/f.txt" = true ∧
    lookupA oneFileState.files "/repo/f.txt" = some "old content" ∧
    untrackedOracle.gitTracked "/repo/f.txt" = false ∧
    run_write untrackedOracle "i1" oneFileState "/repo/f.txt" "new" "d" "chat" true
      = (oneFileState, untrackedOracle.trackError "/repo/f.txt") :=
  ⟨by decide, by decide, by decide,
   (propose_untracked_existing_rejected untrackedOracle "i1" oneFileState
     "/repo/f.txt" "new" "d" "chat" true "old content"
     (by decide) (by decide) (by decide)).2⟩

/-- C5: in preview mode a successful `write_file_content` leaves the
target filesystem exactly as it was — in particular the target path's
content, or its absence, is unchanged. -/
theorem preview_leaves_files_untouched (o : Oracle) (i : String) (s : State)
    (fp content d cid : String) (s₂ : State) (msg : String)
    (h : write_file_content o i s fp content d cid true = .ok (s₂, msg)) :
    s₂.files = s.files ∧ lookupA s₂.files fp = lookupA s.files fp := by
  have hfiles : s₂.files = s.files := by
    rw [write_file_content_preview_eq] at h
    by_cases h₁ : o.pathValid fp = false
    · rw [if_pos h₁] at h
      exact Except.noConfusion h
    · rw [if_neg h₁] at h
      by_cases h₂ : (lookupA s.files fp).isSome = true ∧ o.gitTracked fp = false
      · rw [if_pos h₂] at h
        exact Except.noConfusion h
      · rw [if_neg h₂, Except.ok.injEq, Prod.mk.injEq] at h
        rw [← h.1]
        exact previewState_files o i s fp content d cid
  exact ⟨hfiles, by rw [hfiles]⟩

set_option maxRecDepth 4000 in
/-- Witness for C5: a concrete preview call that succeeds. -/
theorem preview_leaves_files_untouched_witness :
    write_file_content okOracle "i1" emptyState "/repo/new.txt" "hi" "d" "chat" true
      = .ok ({ emptyState with
                dirs := ["/repo"]
                pendingMem := [("i1", ⟨"write", "/repo/new.txt", "hi", "d", "chat", "\n"⟩)]
                pendingDisk := [("i1", ⟨"write", "/repo/new.txt", "hi", "d", "chat", "\n"⟩)] },
             proposeMsg "creating" "/repo/new.txt"
               ("--- a/new.txt\n+++ b/new.txt\n@@ -0,0 +1 @@\n+hi") "i1") ∧
    ({ emptyState with
        dirs := ["/repo"]
        pendingMem := [("i1", ⟨"write", "/repo/new.txt", "hi", "d", "chat", "\n"⟩)]
        pendingDisk := [("i1", ⟨"write", "/repo/new.txt", "hi", "d", "chat", "\n"⟩)] } : State).files
      = emptyState.files :=
  ⟨by decide,
   (preview_leaves_files_untouched okOracle "i1" emptyState "/repo/new.txt" "hi" "d"
     "chat"
     { emptyState with
        dirs := ["/repo"]
        pendingMem := [("i1", ⟨"write", "/repo/new.txt", "hi", "d", "chat", "\n"⟩)]
        pendingDisk := [("i1", ⟨"write", "/repo/new.txt", "hi", "d", "chat", "\n"⟩)] }
     (proposeMsg "creating" "/repo/new.txt"
       ("--- a/new.txt\n+++ b/new.txt\n@@ -0,0 +1 @@\n+hi") "i1")
     (by decide)).1⟩

/-- C6: when the old text is empty (the file did not previously exist),
the diff produced by the proposal path is the ordinary unified-diff
rendering — the `---`/`+++` headers, one hunk header, and then the new
content entirely as `+` lines; no separate file-creation mode exists. -/
theorem create_diff_all_additions (content fp : String)
    (h : splitlines content ≠ []) :
    diff_lines "" content fp =
      ("--- " ++ ("a/" ++ basename fp)) :: ("+++ " ++ ("b/" ++ basename fp))
        :: ("@@ -" ++ formatRangeUnified 0 0 ++ " +"
              ++ formatRangeUnified 0 (splitlines content).length ++ " @@")
        :: (splitlines content).map (fun s => "+" ++ s) := by
  have h₀ : diff_lines "" content fp
      = unified_diff [] (splitlines content)
          ("a/" ++ basename fp) ("b/" ++ basename fp) := by
    simp [diff_lines]
  rw [h₀, unified_diff_nil_left (splitlines content) h]

/-- Witness for C6 at concrete two-line new content. -/
theorem create_diff_all_additions_witness :
    splitlines "hello\nworld" ≠ [] ∧
    diff_lines "" "hello\nworld" "notes.txt" =
      ("--- " ++ ("a/" ++ basename "notes.txt"))
        :: ("+++ " ++ ("b/" ++ basename "notes.txt"))
        :: ("@@ -" ++ formatRangeUnified 0 0 ++ " +"
              ++ formatRangeUnified 0 (splitlines "hello\nworld").length ++ " @@")
        :: (splitlines "hello\nworld").map (fun s => "+" ++ s) :=
  ⟨by decide, create_diff_all_additions "hello\nworld" "notes.txt" (by decide)⟩

/-- C10: the diff is computed over `splitlines()` line lists, so a
proposal whose new content has the same line sequence as the existing
content (e.g. it only adds a trailing newline) yields an empty diff text,
while the ChangeRecord is still stored (in both locations) and the
message still returns the new identifier. -/
theorem same_lines_give_empty_diff (o : Oracle) (i : String) (s : State)
    (fp newContent d cid old : String)
    (hvalid : o.pathValid fp = true)
    (hex : lookupA s.files fp = some old)
    (htr : o.gitTracked fp = true)
    (hlines : splitlines old = splitlines newContent) :
    diff_lines old newContent fp = [] ∧
    write_file_content o i s fp newContent d cid true =
      .ok ({ s with
              pendingMem := insertA s.pendingMem i
                ⟨"write", fp, newContent, d, cid, o.detectLineEndings fp⟩
              pendingDisk := insertA s.pendingDisk i
                ⟨"write", fp, newContent, d, cid, o.detectLineEndings fp⟩ },
           proposeMsg "updating" fp "" i) := by
  have hsl : (if old ≠ "" then splitlines old else []) = splitlines old := by
    split
    · rfl
    · rename_i hne
      simp only [ne_eq, not_not] at hne
      rw [hne]
      rfl
  have hd : diff_lines old newContent fp = [] := by
    unfold diff_lines
    rw [hsl, hlines, unified_diff_self]
  refine ⟨hd, ?_⟩
  rw [write_file_content_preview_eq]
  rw [if_neg (by rw [hvalid]; simp)]
  rw [if_neg (by rw [hex, htr]; simp)]
  rw [hex]
  simp only [Option.isSome_some, if_pos rfl, Option.getD_some, hd]
  have hps : previewState o i s fp newContent d cid =
      { s with
        pendingMem := insertA s.pendingMem i
          ⟨"write", fp, newContent, d, cid, o.detectLineEndings fp⟩
        pendingDisk := insertA s.pendingDisk i
          ⟨"write", fp, newContent, d, cid, o.detectLineEndings fp⟩ } := by
    unfold previewState
    rw [hex]
    rfl
  rw [hps]
  rfl

/-- Witness for C10: the existing file lacks a final newline and the
proposal adds one. -/
theorem same_lines_give_empty_diff_witness :
    splitlines "hello" = splitlines "hello\n" ∧
    write_file_content okOracle "i1"
        { emptyState with files := [("/repo/f.txt", "hello")] }
        "/repo/f.txt" "hello\n" "d" "chat" true =
      .ok ({ emptyState with
              files := [("/repo/f.txt", "hello")]
              pendingMem := [("i1", ⟨"write", "/repo/f.txt", "hello\n", "d", "chat", "\n"⟩)]
              pendingDisk := [("i1", ⟨"write", "/repo/f.txt", "hello\n", "d", "chat", "\n"⟩)] },
           proposeMsg "updating" "/repo/f.txt" "" "i1") :=
  ⟨by decide,
   by
    have h := (same_lines_give_empty_diff okOracle "i1"
      { emptyState with files := [("/repo/f.txt", "hello")] }
      "/repo/f.txt" "hello\n" "d" "chat" "hello"
      (by decide) (by decide) (by decide) (by decide)).2
    exact h.trans (by decide)⟩

/-- C1 (code evaluation): the apply path does not write.  After a valid
proposal stored the record `c1` (payload `"hello\n"` for
`/repo/notes.txt`), running `apply_write` on that record's fields leaves
the target file still absent, and instead stores a brand-new pending
change under the fresh id `c2` and returns another preview message.  (In
the Python source `apply_write` additionally dereferences the undefined
global `session_state` before the call, and calls `write_file_content`
with `preview` left at its default `True`.) -/
theorem apply_write_writes_nothing :
    get_pending_change proposalState "c1"
      = some ⟨"write", "/repo/notes.txt", "hello\n", "add notes", "chat1", "\n"⟩ ∧
    lookupA ((run_apply okOracle "c2" proposalState "/repo/notes.txt" "hello\n"
        "add notes" "chat1").1).files "/repo/notes.txt" = none ∧
    get_pending_change
        ((run_apply okOracle "c2" proposalState "/repo/notes.txt" "hello\n"
          "add notes" "chat1").1) "c2"
      = some ⟨"write", "/repo/notes.txt", "hello\n", "add notes", "chat1", "\n"⟩ := by
  refine ⟨by decide, by decide, by decide⟩

end Codemcp
